import Mathlib

/-!
Shallow embedding of the near-Earth-objects project
(`models.py`, `extract.py`, `database.py`, `write.py`).

Python floats are modelled as `NumVal` (a rational, or one of the
non-finite sentinels NaN / +inf / -inf); Python dictionaries as
association lists with overwrite-on-insert; fallible Python code
(`float`, attribute access on `None`) as `Except PyError`.
-/

set_option autoImplicit false

namespace NEO

/-- Model of a Python float value: finite (as an exact rational) or one of
the non-finite sentinels (`float("nan")`, `float("inf")`, `float("-inf")`). -/
inductive NumVal where
  | nan : NumVal
  | inf : NumVal
  | ninf : NumVal
  | fin (q : ℚ) : NumVal
deriving DecidableEq, Repr

/-- Negation of a float value, for a leading `-` sign in `float(s)`.
Python's `float("-nan")` is still NaN. -/
def NumVal.neg : NumVal → NumVal
  | .nan => .nan
  | .inf => .ninf
  | .ninf => .inf
  | .fin q => .fin (-q)

/-- Python truthiness of a float: only `0.0` is falsy (`float("nan")` is truthy). -/
def NumVal.truthy : NumVal → Bool
  | .fin q => q ≠ 0
  | _ => true

/-- A dynamically-typed Python value, as passed to the model constructors:
`None`, a string, a number, or a boolean. -/
inductive PyVal where
  | pynone : PyVal
  | str (s : String) : PyVal
  | num (q : ℚ) : PyVal
  | bool (b : Bool) : PyVal
deriving DecidableEq, Repr

/-- Python truthiness of a `PyVal` (`None` and `""` and `0` and `False` are falsy). -/
def PyVal.truthy : PyVal → Bool
  | .pynone => false
  | .str s => s ≠ ""
  | .num q => q ≠ 0
  | .bool b => b

/-- The Python exceptions the modelled code can raise. -/
inductive PyError where
  | valueError : PyError
  | typeError : PyError
  | attributeError : PyError
deriving DecidableEq, Repr

/-! ### Python `float(...)` on strings

`models.py` applies the builtin `float` to the raw CSV/JSON field values,
which are strings. We model the builtin's parse of an ordinary float
literal: optional surrounding whitespace, an optional sign, and either
`inf`/`infinity`/`nan` (case-insensitive) or a decimal literal
`digits [. digits] [e [sign] digits]` with at least one digit in the
mantissa. (Digit-group underscores are not modelled.) An unparseable
string is a `ValueError`, modelled as `none`. -/

/-- Numeric value of a list of decimal digit characters. -/
def digitsVal (l : List Char) : ℕ :=
  l.foldl (fun n c => 10 * n + (c.toNat - 48)) 0

/-- The whitespace characters `str.strip` removes before Python's
`float` parses a string. -/
def isPySpace (c : Char) : Bool :=
  c = ' ' || c = '\t' || c = '\n' || c = '\r' || c = '\x0b' || c = '\x0c'

/-- Strip leading and trailing whitespace from a character list. -/
def stripChars (l : List Char) : List Char :=
  ((l.dropWhile isPySpace).reverse.dropWhile isPySpace).reverse

/-- Parse the exponent suffix after `e`: an optional sign and a nonempty
digit string, which must consume the rest of the input. -/
def parseExp (l : List Char) : Option ℤ :=
  match l with
  | '+' :: rest => if rest ≠ [] ∧ rest.all (·.isDigit) then some (digitsVal rest) else none
  | '-' :: rest => if rest ≠ [] ∧ rest.all (·.isDigit) then some (-(digitsVal rest : ℤ)) else none
  | rest => if rest ≠ [] ∧ rest.all (·.isDigit) then some (digitsVal rest) else none

/-- Parse an unsigned decimal float literal `digits [. digits] [e exp]`. -/
def parseMantissa (l : List Char) : Option NumVal :=
  let (ip, rest₁) := l.span (·.isDigit)
  let (fp, rest₂) :=
    match rest₁ with
    | '.' :: r => r.span (·.isDigit)
    | _ => ([], rest₁)
  let rest₃ := if rest₁.head? = some '.' then rest₂ else rest₁
  if ip ++ fp = [] then none
  else
    let mant : ℚ := (digitsVal (ip ++ fp) : ℚ)
    match rest₃ with
    | [] => some (.fin (mant * (10 : ℚ) ^ (-(fp.length : ℤ))))
    | 'e' :: r =>
        match parseExp r with
        | some e => some (.fin (mant * (10 : ℚ) ^ (e - fp.length)))
        | none => none
    | _ => none

/-- Parse a float literal body after the optional sign. -/
def parseBody (l : List Char) : Option NumVal :=
  if l = "inf".data ∨ l = "infinity".data then some .inf
  else if l = "nan".data then some .nan
  else parseMantissa l

/-- Model of the Python builtin `float` applied to a string: strip
surrounding whitespace, lower-case (the keywords are case-insensitive;
digits, the sign and the exponent marker are unaffected), take an
optional sign, then parse the body. `none` models a raised `ValueError`. -/
def pyFloatOfString (s : String) : Option NumVal :=
  match stripChars (s.data.map Char.toLower) with
  | '+' :: rest => parseBody rest
  | '-' :: rest => (parseBody rest).map NumVal.neg
  | l => parseBody l

/-- Model of the Python builtin `float` applied to a dynamic value:
numbers and booleans convert, strings are parsed, `None` is a `TypeError`. -/
def pyFloat : PyVal → Except PyError NumVal
  | .num q => .ok (.fin q)
  | .bool b => .ok (.fin (if b then 1 else 0))
  | .str s =>
      match pyFloatOfString s with
      | some v => .ok v
      | none => .error .valueError
  | .pynone => .error .typeError

/-! ### `helpers.py` (not present in the sources) -/

/-- Modelled from the spec: `helpers.cd_to_datetime` is absent from the
sources; the spec only says the timestamp is a "parsed calendar
date-time", so the parsed form is kept as the raw calendar string. -/
structure CalTime where
  raw : String
deriving DecidableEq, Repr

/-- Modelled from the spec: `helpers.cd_to_datetime` parses a
NASA-formatted calendar date-time string. -/
def cd_to_datetime (s : String) : CalTime := ⟨s⟩

/-- Modelled from the spec: `helpers.datetime_to_str` formats an approach
time back to a calendar string. -/
def datetime_to_str (t : Option CalTime) : String :=
  match t with
  | some c => c.raw
  | none => "None"

/-! ### `models.py` -/

/-- `models.NearEarthObject` after construction, cross-references left to
the database (spec §9 arena discipline): `designation`, `name`
(`Option String`: `none` models Python `None`), `diameter`, `hazardous`. -/
structure NearEarthObject where
  designation : String
  name : Option String
  diameter : NumVal
  hazardous : Bool
deriving DecidableEq, Repr

/-- `NearEarthObject.__init__` line 32:
`self.name = None if name == "" else str(name)`, where the `name`
argument is Python `None` (the default) or a string and `str(None)`
is the four-character string `"None"`. -/
def storedName (name : Option String) : Option String :=
  match name with
  | some s => if s = "" then none else some s
  | none => some "None"

/-- `NearEarthObject.__init__` (models.py lines 16-37): the `diameter`
conversion `float(diameter) if diameter else float("nan")` can raise, so
the result is an `Except` that propagates the exception. -/
def mkNearEarthObject (designation : String) (name : Option String)
    (diameter : PyVal) (hazardous : PyVal) : Except PyError NearEarthObject :=
  match (if diameter.truthy then pyFloat diameter else .ok .nan) with
  | .error e => .error e
  | .ok dia =>
      .ok
        { designation := designation
          name := storedName name
          diameter := dia
          hazardous := hazardous.truthy }

/-- `NearEarthObject.fullname` (models.py lines 39-45): `if self.name:`
is Python truthiness of the stored name. -/
def NearEarthObject.fullname (neo : NearEarthObject) : String :=
  match neo.name with
  | some s => if s = "" then neo.designation else neo.designation ++ " (" ++ s ++ ")"
  | none => neo.designation

/-- `models.CloseApproach` after construction, its `neo` back-reference
left to the database: `_designation`, `time`, `distance`, `velocity`. -/
structure CloseApproach where
  _designation : String
  time : Option CalTime
  distance : NumVal
  velocity : NumVal
deriving DecidableEq, Repr

/-- `CloseApproach.__init__` (models.py lines 80-99): the `time` argument
is a calendar string or `None`; `distance` and `velocity` go through
`float(x) if x else float("nan")`. -/
def mkCloseApproach (designation : String) (time : Option String)
    (distance : PyVal) (velocity : PyVal) : Except PyError CloseApproach :=
  match (if distance.truthy then pyFloat distance else .ok .nan) with
  | .error e => .error e
  | .ok dist =>
      match (if velocity.truthy then pyFloat velocity else .ok .nan) with
      | .error e => .error e
      | .ok vel =>
          .ok
            { _designation := designation
              time :=
                match time with
                | some s => if s = "" then none else some (cd_to_datetime s)
                | none => none
              distance := dist
              velocity := vel }

/-! ### `extract.py`: the hazardous marker mapping -/

/-- `extract.load_neos` line 28: `hazardous_map = {"Y": True, "N": False}`. -/
def hazardous_map : List (String × Bool) := [("Y", true), ("N", false)]

/-! ### Python dictionaries

A dict is modelled as an association list with at most one entry per key:
insertion overwrites an existing entry in place or appends a new one,
and `dictGet?` returns the first (hence only) entry for a key, `none`
playing the role of the `.get(k, None)` default. -/

section Dict

variable {α : Type} {β : Type} [DecidableEq α]

/-- `m[k] = v` on a Python dict: overwrite in place or append. -/
def dictInsert (m : List (α × β)) (k : α) (v : β) : List (α × β) :=
  match m with
  | [] => [(k, v)]
  | (k', v') :: rest => if k' = k then (k, v) :: rest else (k', v') :: dictInsert rest k v

/-- `m.get(k, None)` on a Python dict. -/
def dictGet? (m : List (α × β)) (k : α) : Option β :=
  match m with
  | [] => none
  | (k', v') :: rest => if k' = k then some v' else dictGet? rest k

end Dict

/-! ### `database.py` -/

/-- `NEODatabase` after `__init__` (database.py lines 35-79): the primary
collections, the three dict indices, and the two cross-reference maps
(`neo.approaches` per NEO and `approach.neo` per approach, stored
positionally, spec §9 arena discipline). -/
structure NEODatabase where
  _neos : List NearEarthObject
  _approaches : List CloseApproach
  _designation_neo_map : List (String × NearEarthObject)
  _name_neo_map : List (Option String × NearEarthObject)
  _designation_approaches_map : List (String × List CloseApproach)
  neoApproaches : List (List CloseApproach)
  approachNeo : List (Option NearEarthObject)
deriving Repr

/-- One step of the grouping loop (database.py lines 68-72): append to the
existing list for the key, or start a new singleton list. -/
def groupStep (m : List (String × List CloseApproach)) (a : CloseApproach) :
    List (String × List CloseApproach) :=
  match dictGet? m a._designation with
  | some l => dictInsert m a._designation (l ++ [a])
  | none => dictInsert m a._designation [a]

/-- `NEODatabase.__init__` (database.py lines 35-79): build the three dict
indices, then link NEOs to their approach lists and approaches to their
NEOs by designation lookup with `None`/`[]` defaults. -/
def NEODatabase.init (neos : List NearEarthObject) (approaches : List CloseApproach) :
    NEODatabase :=
  let dmap := neos.foldl (fun m neo => dictInsert m neo.designation neo) []
  let nmap := neos.foldl (fun m neo => dictInsert m neo.name neo) []
  let amap := approaches.foldl groupStep []
  { _neos := neos
    _approaches := approaches
    _designation_neo_map := dmap
    _name_neo_map := nmap
    _designation_approaches_map := amap
    neoApproaches := neos.map (fun neo => (dictGet? amap neo.designation).getD [])
    approachNeo := approaches.map (fun a => dictGet? dmap a._designation) }

/-- `NEODatabase.get_neo_by_designation` (database.py lines 81-87). -/
def NEODatabase.get_neo_by_designation (db : NEODatabase) (designation : String) :
    Option NearEarthObject :=
  dictGet? db._designation_neo_map designation

/-- `NEODatabase.get_neo_by_name` (database.py lines 89-107): `dict.get`
never raises `KeyError`, so the `except` branch is dead code and the
method is the plain lookup with a `None` default. -/
def NEODatabase.get_neo_by_name (db : NEODatabase) (name : Option String) :
    Option NearEarthObject :=
  dictGet? db._name_neo_map name

/-- The approaches as Python yields them, each carrying its linked NEO
(`approach.neo`): the positional pairing of `_approaches` with `approachNeo`. -/
def NEODatabase.linkedApproaches (db : NEODatabase) :
    List (CloseApproach × Option NearEarthObject) :=
  db._approaches.zip db.approachNeo

/-- `NEODatabase.query` (database.py lines 109-137): stream the approaches
in stored order, keeping those accepted by every filter
(`all([filter(approach) for filter in filters])`). -/
def NEODatabase.query (db : NEODatabase)
    (filters : List (CloseApproach × Option NearEarthObject → Bool)) :
    List (CloseApproach × Option NearEarthObject) :=
  db.linkedApproaches.filter (fun a => ((filters.map (fun f => f a)).all id))

/-! ### serialization (`models.py`) and `write.py` -/

/-- The dictionary returned by `NearEarthObject.serialize`
(models.py lines 47-54). -/
structure NeoDict where
  designation : String
  name : String
  diameter_km : NumVal
  potentially_hazardous : Bool
deriving DecidableEq, Repr

/-- `NearEarthObject.serialize` (models.py lines 47-54):
`"name": self.name if self.name else ""` is Python truthiness. -/
def NearEarthObject.serialize (neo : NearEarthObject) : NeoDict :=
  { designation := neo.designation
    name :=
      match neo.name with
      | some s => s
      | none => ""
    diameter_km := neo.diameter
    potentially_hazardous := neo.hazardous }

/-- The dictionary returned by `CloseApproach.serialize`
(models.py lines 106-112). -/
structure ApproachDict where
  datetime_utc : String
  distance_au : NumVal
  velocity_km_s : NumVal
deriving DecidableEq, Repr

/-- `CloseApproach.serialize` (models.py lines 106-112). -/
def CloseApproach.serialize (a : CloseApproach) : ApproachDict :=
  { datetime_utc := datetime_to_str a.time
    distance_au := a.distance
    velocity_km_s := a.velocity }

/-- A CSV cell as written by `write.py`: a string, a float, or a boolean. -/
inductive CsvCell where
  | str (s : String) : CsvCell
  | num (v : NumVal) : CsvCell
  | bool (b : Bool) : CsvCell
deriving DecidableEq, Repr

/-- `write.float_to_csv` (write.py lines 19-23): a falsy float field
(only `0.0`; NaN is truthy) is replaced by the string `'nan'`. -/
def float_to_csv (field : NumVal) : CsvCell :=
  if field.truthy then .num field else .str "nan"

/-- The `fieldnames` header row of `write_to_csv` (write.py lines 32-40). -/
def csvFieldnames : List String :=
  ["datetime_utc", "distance_au", "velocity_km_s", "designation", "name",
   "diameter_km", "potentially_hazardous"]

/-- One data row of `write_to_csv` (write.py lines 44-55): serializing the
approach, then `result.neo.serialize()` — an `AttributeError` when the
approach is an orphan (`neo` is `None`). -/
def csvRow (result : CloseApproach × Option NearEarthObject) :
    Except PyError (List CsvCell) :=
  let cad := result.1.serialize
  match result.2 with
  | none => .error .attributeError
  | some neo =>
      let nd := neo.serialize
      .ok [.str cad.datetime_utc, float_to_csv cad.distance_au,
           float_to_csv cad.velocity_km_s, .str nd.designation, .str nd.name,
           float_to_csv nd.diameter_km, .bool nd.potentially_hazardous]

/-- `write.write_to_csv` (write.py lines 26-55): the header row followed by
one row per consumed result, in order; fails at the first orphan. -/
def write_to_csv (results : List (CloseApproach × Option NearEarthObject)) :
    Except PyError (List (List CsvCell)) := do
  let rows ← results.mapM csvRow
  pure (csvFieldnames.map CsvCell.str :: rows)

/-- One JSON record of `write_to_json` (write.py line 71):
`{**result.serialize(), **{"neo": result.neo.serialize()}}`. -/
structure JsonRecord where
  approach : ApproachDict
  neo : NeoDict
deriving DecidableEq, Repr

/-- `write.write_to_json` (write.py lines 58-75): one JSON record per
consumed result, in order; `result.neo.serialize()` is an
`AttributeError` at the first orphan. -/
def write_to_json (results : List (CloseApproach × Option NearEarthObject)) :
    Except PyError (List JsonRecord) :=
  results.mapM (fun result =>
    match result.2 with
    | none => .error .attributeError
    | some neo => .ok { approach := result.1.serialize, neo := neo.serialize })

/-- `extract.load_neos` line 40: `hazardous_map.get(row[...])`, the value
handed to the `hazardous` parameter (`None` for an unrecognized marker). -/
def loadHazardous (s : String) : PyVal :=
  match dictGet? hazardous_map s with
  | some b => .bool b
  | none => .pynone

/-! ### Concrete sample records for witnesses -/

/-- A sample NEO with no name, as produced by
`NearEarthObject("A", name="", ...)`. -/
def neoA : NearEarthObject :=
  { designation := "A", name := none, diameter := .nan, hazardous := false }

/-- A sample named NEO, as produced by
`NearEarthObject("B", name="Bee", diameter=1, hazardous=True)`. -/
def neoB : NearEarthObject :=
  { designation := "B", name := some "Bee", diameter := .fin 1, hazardous := true }

/-- A sample approach whose foreign key matches `neoA`. -/
def appA : CloseApproach :=
  { _designation := "A", time := none, distance := .nan, velocity := .nan }

/-- A sample orphan approach: no NEO carries designation `"Z"`. -/
def appZ : CloseApproach :=
  { _designation := "Z", time := none, distance := .fin 1, velocity := .fin 2 }

/-!
## Lemmas

First the dictionary lemmas, then per-claim developments.
-/

section DictLemmas

variable {α : Type} {β : Type} [DecidableEq α]

theorem dictGet?_nil (k : α) : dictGet? ([] : List (α × β)) k = none := rfl

theorem dictGet?_insert_self (m : List (α × β)) (k : α) (v : β) :
    dictGet? (dictInsert m k v) k = some v := by
  induction m with
  | nil => simp [dictInsert, dictGet?]
  | cons p rest ih =>
      obtain ⟨k', v'⟩ := p
      by_cases h : k' = k <;> simp [dictInsert, dictGet?, h, ih]

theorem dictGet?_insert_ne (m : List (α × β)) (k k' : α) (v : β) (h : k' ≠ k) :
    dictGet? (dictInsert m k v) k' = dictGet? m k' := by
  induction m with
  | nil => simp [dictInsert, dictGet?, Ne.symm h]
  | cons p rest ih =>
      obtain ⟨k₀, v₀⟩ := p
      by_cases h₀ : k₀ = k
      · subst h₀
        simp [dictInsert, dictGet?, Ne.symm h]
      · simp [dictInsert, dictGet?, h₀, ih]

/-- An entry of `dictInsert m k v` is the new pair or an entry of `m`. -/
theorem mem_dictInsert (m : List (α × β)) (k : α) (v : β) (p : α × β)
    (hp : p ∈ dictInsert m k v) : p = (k, v) ∨ p ∈ m := by
  induction m with
  | nil => simpa [dictInsert] using hp
  | cons q rest ih =>
      obtain ⟨k', v'⟩ := q
      by_cases h : k' = k
      · rcases (by simpa [dictInsert, h] using hp) with h' | h'
        · exact Or.inl (by simp [h'])
        · exact Or.inr (List.mem_cons_of_mem _ h')
      · rcases (by simpa [dictInsert, h] using hp) with h' | h'
        · exact Or.inr (by simp [h'])
        · rcases ih h' with h'' | h''
          · exact Or.inl h''
          · exact Or.inr (List.mem_cons_of_mem _ h'')

/-- A successful lookup returns an entry of the dict. -/
theorem dictGet?_mem (m : List (α × β)) (k : α) (v : β)
    (h : dictGet? m k = some v) : (k, v) ∈ m := by
  induction m with
  | nil => simp [dictGet?] at h
  | cons p rest ih =>
      obtain ⟨k', v'⟩ := p
      by_cases hk : k' = k
      · subst hk
        simp [dictGet?] at h
        simp [h]
      · simp only [dictGet?, if_neg hk] at h
        exact List.mem_cons_of_mem _ (ih h)

/-- Every entry of a dict built by folding `dictInsert` over a list is
`(key x, val x)` for some element `x` of the list. -/
theorem mem_foldl_dictInsert {γ : Type} (key : γ → α) (val : γ → β)
    (l : List γ) (m₀ : List (α × β)) (p : α × β)
    (hp : p ∈ l.foldl (fun m x => dictInsert m (key x) (val x)) m₀) :
    p ∈ m₀ ∨ ∃ x ∈ l, p = (key x, val x) := by
  induction l generalizing m₀ with
  | nil => exact Or.inl (by simpa using hp)
  | cons x rest ih =>
      rcases ih _ (by simpa using hp) with h | h
      · rcases mem_dictInsert _ _ _ _ h with h' | h'
        · exact Or.inr ⟨x, by simp, h'⟩
        · exact Or.inl h'
      · obtain ⟨y, hy, hyp⟩ := h
        exact Or.inr ⟨y, List.mem_cons_of_mem _ hy, hyp⟩

/-- A key that no element of the list maps to is absent from the folded dict. -/
theorem dictGet?_foldl_dictInsert_eq_none {γ : Type} (key : γ → α) (val : γ → β)
    (l : List γ) (k : α) (h : ∀ x ∈ l, key x ≠ k) :
    dictGet? (l.foldl (fun m x => dictInsert m (key x) (val x)) []) k = none := by
  rcases hv : dictGet? (l.foldl (fun m x => dictInsert m (key x) (val x)) []) k with _ | v
  · rfl
  · rcases mem_foldl_dictInsert key val l [] _ (dictGet?_mem _ _ _ hv) with h' | ⟨x, hx, hxp⟩
    · simp at h'
    · exact absurd (congrArg Prod.fst hxp).symm (h x hx)

end DictLemmas

/-! ### Unfolding lemmas for the database constructor -/

theorem init_approaches (neos : List NearEarthObject) (approaches : List CloseApproach) :
    (NEODatabase.init neos approaches)._approaches = approaches := rfl

theorem init_designation_neo_map (neos : List NearEarthObject) (approaches : List CloseApproach) :
    (NEODatabase.init neos approaches)._designation_neo_map =
      neos.foldl (fun m neo => dictInsert m neo.designation neo) [] := rfl

theorem init_name_neo_map (neos : List NearEarthObject) (approaches : List CloseApproach) :
    (NEODatabase.init neos approaches)._name_neo_map =
      neos.foldl (fun m neo => dictInsert m neo.name neo) [] := rfl

theorem init_approachNeo (neos : List NearEarthObject) (approaches : List CloseApproach) :
    (NEODatabase.init neos approaches).approachNeo =
      approaches.map (fun a =>
        dictGet? (neos.foldl (fun m neo => dictInsert m neo.designation neo) [])
          a._designation) := rfl

/-- Zipping a list with its own image is mapping with the pairing function. -/
theorem zip_map_self {α β : Type} (l : List α) (f : α → β) :
    l.zip (l.map f) = l.map (fun a => (a, f a)) := by
  induction l with
  | nil => rfl
  | cons x rest ih => simp [ih]

/-- The linked approach stream of a constructed database, elementwise: each
approach paired with the designation-map lookup of its foreign key. -/
theorem init_linkedApproaches (neos : List NearEarthObject) (approaches : List CloseApproach) :
    (NEODatabase.init neos approaches).linkedApproaches =
      approaches.map (fun a =>
        (a, dictGet? (neos.foldl (fun m neo => dictInsert m neo.designation neo) [])
              a._designation)) := by
  rw [NEODatabase.linkedApproaches, init_approaches, init_approachNeo, zip_map_self]

/-! ### C4: the empty query -/

/-- C4: for every constructed database, `query` with an empty filter
collection yields exactly the linked approach stream, whose underlying
approach records are the original approaches collection in insertion
order, exactly once each. -/
theorem C4_query_empty_yields_all (neos : List NearEarthObject)
    (approaches : List CloseApproach) :
    (NEODatabase.init neos approaches).query [] =
        (NEODatabase.init neos approaches).linkedApproaches ∧
      ((NEODatabase.init neos approaches).query []).map Prod.fst = approaches := by
  have hq : (NEODatabase.init neos approaches).query [] =
      (NEODatabase.init neos approaches).linkedApproaches := by
    simp [NEODatabase.query]
  refine ⟨hq, ?_⟩
  rw [hq, init_linkedApproaches]
  simp only [List.map_map]
  show List.map (fun a => a) approaches = approaches
  exact List.map_id' approaches

/-! ### C5: conjunction commutativity of query -/

/-- C5: for every constructed database and any two filter predicates `A`
and `B`, `query [A, B]` and `query [B, A]` yield identical sequences. -/
theorem C5_query_comm (neos : List NearEarthObject) (approaches : List CloseApproach)
    (A B : CloseApproach × Option NearEarthObject → Bool) :
    (NEODatabase.init neos approaches).query [A, B] =
      (NEODatabase.init neos approaches).query [B, A] := by
  unfold NEODatabase.query
  refine List.filter_congr ?_
  intro a _
  simp [Bool.and_comm]

/-! ### C7: lookup misses return null, lookups are deterministic -/

/-- C7: for every constructed database, `get_neo_by_designation` and
`get_neo_by_name` return `none` on a key matching no NEO (and being total
functions they never throw), and repeated calls with the same key return
the same result. -/
theorem C7_lookup_miss (neos : List NearEarthObject) (approaches : List CloseApproach)
    (d : String) (n : Option String)
    (hd : ∀ neo ∈ neos, neo.designation ≠ d)
    (hn : ∀ neo ∈ neos, neo.name ≠ n) :
    (NEODatabase.init neos approaches).get_neo_by_designation d = none ∧
      (NEODatabase.init neos approaches).get_neo_by_name n = none ∧
      (NEODatabase.init neos approaches).get_neo_by_designation d =
        (NEODatabase.init neos approaches).get_neo_by_designation d ∧
      (NEODatabase.init neos approaches).get_neo_by_name n =
        (NEODatabase.init neos approaches).get_neo_by_name n := by
  refine ⟨?_, ?_, rfl, rfl⟩
  · rw [NEODatabase.get_neo_by_designation, init_designation_neo_map]
    exact dictGet?_foldl_dictInsert_eq_none (fun neo => neo.designation) (fun neo => neo)
      neos d hd
  · rw [NEODatabase.get_neo_by_name, init_name_neo_map]
    exact dictGet?_foldl_dictInsert_eq_none (fun neo => neo.name) (fun neo => neo)
      neos n hn

/-- Witness for C7: on the database of `neoA` and `neoB`, the designation
`"C"` and the name `"Cee"` match no NEO, and both lookups return `none`. -/
theorem C7_lookup_miss_witness :
    (∀ neo ∈ [neoA, neoB], neo.designation ≠ "C") ∧
      (∀ neo ∈ [neoA, neoB], neo.name ≠ some "Cee") ∧
      (NEODatabase.init [neoA, neoB] [appA, appZ]).get_neo_by_designation "C" = none ∧
      (NEODatabase.init [neoA, neoB] [appA, appZ]).get_neo_by_name (some "Cee") = none :=
  ⟨by decide, by decide,
    (C7_lookup_miss [neoA, neoB] [appA, appZ] "C" (some "Cee") (by decide) (by decide)).1,
    (C7_lookup_miss [neoA, neoB] [appA, appZ] "C" (some "Cee") (by decide) (by decide)).2.1⟩

/-! ### C1: linking correctness -/

/-- Every entry of the designation→NEO index maps a designation to a NEO
carrying exactly that designation. -/
theorem designation_neo_map_sound (neos : List NearEarthObject)
    (d : String) (neo : NearEarthObject)
    (h : dictGet? (neos.foldl (fun m x => dictInsert m x.designation x) []) d = some neo) :
    neo.designation = d := by
  rcases mem_foldl_dictInsert (fun x : NearEarthObject => x.designation) (fun x => x)
      neos [] _ (dictGet?_mem _ _ _ h) with h' | ⟨x, _, hxp⟩
  · simp at h'
  · obtain ⟨h₁, h₂⟩ := Prod.mk.injEq .. ▸ hxp
    rw [h₂, ← h₁]

/-- C1: in every constructed database, every approach's linked-NEO
reference, if non-null, refers to a NEO whose designation equals the
approach's foreign key `_designation`. -/
theorem C1_linking_correct (neos : List NearEarthObject) (approaches : List CloseApproach)
    (p : CloseApproach × Option NearEarthObject)
    (hp : p ∈ (NEODatabase.init neos approaches).linkedApproaches)
    (neo : NearEarthObject) (hneo : p.2 = some neo) :
    neo.designation = p.1._designation := by
  rw [init_linkedApproaches] at hp
  obtain ⟨a, _, hpa⟩ := List.mem_map.mp hp
  have h2 : p.2 = dictGet? (neos.foldl (fun m x => dictInsert m x.designation x) [])
      a._designation := by rw [← hpa]
  have h1 : p.1 = a := by rw [← hpa]
  rw [h1]
  exact designation_neo_map_sound neos a._designation neo (by rw [← h2, hneo])

/-- Witness for C1: in the database of `neoA`, `neoB` and the approaches
`appA`, `appZ`, the pair `(appA, some neoA)` is a linked approach and the
linked NEO's designation equals `appA`'s foreign key. -/
theorem C1_linking_correct_witness :
    (appA, some neoA) ∈ (NEODatabase.init [neoA, neoB] [appA, appZ]).linkedApproaches ∧
      ((appA, (some neoA : Option NearEarthObject)).2 = some neoA) ∧
      neoA.designation = (appA, (some neoA : Option NearEarthObject)).1._designation :=
  ⟨by decide, rfl,
    C1_linking_correct [neoA, neoB] [appA, appZ] (appA, some neoA) (by decide) neoA rfl⟩

/-! ### C2: the approach lists partition the non-orphan approaches -/

/-- The per-designation group held by the grouping dict after folding:
the previously held group extended by the matching approaches, in order. -/
theorem groupFold_get (l : List CloseApproach) (m : List (String × List CloseApproach))
    (d : String) :
    (dictGet? (l.foldl groupStep m) d).getD [] =
      (dictGet? m d).getD [] ++ l.filter (fun a => a._designation = d) := by
  induction l generalizing m with
  | nil => simp
  | cons a rest ih =>
      rw [List.foldl_cons, ih]
      by_cases hd : a._designation = d
      · subst hd
        have hstep : dictGet? (groupStep m a) a._designation =
            some ((dictGet? m a._designation).getD [] ++ [a]) := by
          unfold groupStep
          rcases hm : dictGet? m a._designation with _ | l₀ <;>
            simp [hm, dictGet?_insert_self]
        rw [hstep, List.filter_cons]
        simp
      · have hstep : dictGet? (groupStep m a) d = dictGet? m d := by
          unfold groupStep
          rcases hm : dictGet? m a._designation with _ | l₀ <;>
            exact dictGet?_insert_ne _ _ _ _ (fun hh => hd hh.symm)
        rw [hstep, List.filter_cons]
        simp [hd]

/-- The linked `approaches` collections of a constructed database: each NEO
receives exactly the approaches whose foreign key is its designation, in
insertion order. -/
theorem init_neoApproaches (neos : List NearEarthObject) (approaches : List CloseApproach) :
    (NEODatabase.init neos approaches).neoApproaches =
      neos.map (fun neo => approaches.filter (fun a => a._designation = neo.designation)) := by
  show neos.map
      (fun neo => (dictGet? (approaches.foldl groupStep []) neo.designation).getD []) = _
  refine List.map_congr_left ?_
  intro neo _
  rw [groupFold_get approaches [] neo.designation]
  simp [dictGet?]

/-- The `i`-th NEO's linked approach collection, for `i` in range. -/
theorem init_neoApproaches_getD (neos : List NearEarthObject)
    (approaches : List CloseApproach) (i : ℕ) (hi : i < neos.length) :
    (NEODatabase.init neos approaches).neoApproaches.getD i [] =
      approaches.filter (fun a => a._designation = (neos.get ⟨i, hi⟩).designation) := by
  rw [init_neoApproaches, List.getD_eq_getElem?_getD, List.getElem?_map,
    List.getElem?_eq_getElem hi]
  simp [List.get_eq_getElem]

/-- C2: in every database constructed from NEOs with pairwise-distinct
designations, an approach lies in some NEO's linked collection exactly
when it is a non-orphan element of the approaches collection, and no
approach lies in two distinct NEOs' collections. -/
theorem C2_approaches_partition (neos : List NearEarthObject)
    (approaches : List CloseApproach)
    (hdist : neos.Pairwise (fun x y => x.designation ≠ y.designation)) :
    (∀ a : CloseApproach,
      (∃ i, ∃ hi : i < neos.length,
          a ∈ (NEODatabase.init neos approaches).neoApproaches.getD i []) ↔
        (a ∈ approaches ∧ ∃ neo ∈ neos, neo.designation = a._designation)) ∧
      (∀ i j, ∀ hi : i < neos.length, ∀ hj : j < neos.length, i ≠ j →
        ∀ a : CloseApproach,
          a ∈ (NEODatabase.init neos approaches).neoApproaches.getD i [] →
          a ∉ (NEODatabase.init neos approaches).neoApproaches.getD j []) := by
  constructor
  · intro a
    constructor
    · rintro ⟨i, hi, hmem⟩
      rw [init_neoApproaches_getD neos approaches i hi] at hmem
      obtain ⟨ha, hd⟩ := List.mem_filter.mp hmem
      exact ⟨ha, neos.get ⟨i, hi⟩, List.get_mem neos i hi,
        (of_decide_eq_true hd).symm⟩
    · rintro ⟨ha, neo, hneo, hd⟩
      obtain ⟨i, hi, hig⟩ := List.mem_iff_getElem.mp hneo
      refine ⟨i, hi, ?_⟩
      rw [init_neoApproaches_getD neos approaches i hi]
      refine List.mem_filter.mpr ⟨ha, decide_eq_true ?_⟩
      show a._designation = (neos.get ⟨i, hi⟩).designation
      rw [List.get_eq_getElem, hig, hd]
  · intro i j hi hj hij a hai haj
    rw [init_neoApproaches_getD neos approaches i hi] at hai
    rw [init_neoApproaches_getD neos approaches j hj] at haj
    have hdi : a._designation = (neos.get ⟨i, hi⟩).designation :=
      of_decide_eq_true (List.mem_filter.mp hai).2
    have hdj : a._designation = (neos.get ⟨j, hj⟩).designation :=
      of_decide_eq_true (List.mem_filter.mp haj).2
    simp only [List.get_eq_getElem] at hdi hdj
    have hpair := List.pairwise_iff_getElem.mp hdist
    rcases Nat.lt_or_ge i j with hlt | hge
    · exact hpair i j hi hj hlt (by rw [← hdi]; exact hdj)
    · rcases Nat.lt_or_ge j i with hlt' | hge'
      · exact hpair j i hj hi hlt' (by rw [← hdj]; exact hdi)
      · exact hij (Nat.le_antisymm hge' hge)

/-- Witness for C2: the NEOs `neoA`, `neoB` have distinct designations,
and on the database with approaches `appA` (linked to `neoA`) and `appZ`
(an orphan) the partition statement is realized. -/
theorem C2_approaches_partition_witness :
    List.Pairwise (fun x y : NearEarthObject => x.designation ≠ y.designation)
        [neoA, neoB] ∧
      ((∀ a : CloseApproach,
        (∃ i, ∃ hi : i < ([neoA, neoB] : List NearEarthObject).length,
            a ∈ (NEODatabase.init [neoA, neoB] [appA, appZ]).neoApproaches.getD i []) ↔
          (a ∈ [appA, appZ] ∧
            ∃ neo ∈ [neoA, neoB], neo.designation = a._designation)) ∧
        (∀ i j, ∀ hi : i < ([neoA, neoB] : List NearEarthObject).length,
          ∀ hj : j < ([neoA, neoB] : List NearEarthObject).length, i ≠ j →
          ∀ a : CloseApproach,
            a ∈ (NEODatabase.init [neoA, neoB] [appA, appZ]).neoApproaches.getD i [] →
            a ∉ (NEODatabase.init [neoA, neoB] [appA, appZ]).neoApproaches.getD j [])) :=
  ⟨by decide, C2_approaches_partition [neoA, neoB] [appA, appZ] (by decide)⟩

/-! ### Constructor field lemmas -/

/-- The fields of a successfully constructed `NearEarthObject`. -/
theorem mkNearEarthObject_ok_fields (d : String) (nm : Option String) (dv hz : PyVal)
    (neo : NearEarthObject) (h : mkNearEarthObject d nm dv hz = Except.ok neo) :
    neo.designation = d ∧ neo.name = storedName nm ∧ neo.hazardous = hz.truthy ∧
      (dv.truthy = false → neo.diameter = NumVal.nan) := by
  rcases hv : (if dv.truthy then pyFloat dv else Except.ok NumVal.nan) with e | v
  · rw [mkNearEarthObject, hv] at h
    exact Except.noConfusion h
  · rw [mkNearEarthObject, hv] at h
    simp only [Except.ok.injEq] at h
    subst h
    refine ⟨rfl, rfl, rfl, ?_⟩
    intro hf
    rw [hf] at hv
    simp only [Bool.false_eq_true, if_false, Except.ok.injEq] at hv
    exact hv.symm

/-- A successfully constructed `NearEarthObject` never stores the empty
string as its name. -/
theorem mkNearEarthObject_name_ne_empty (d : String) (nm : Option String) (dv hz : PyVal)
    (neo : NearEarthObject) (h : mkNearEarthObject d nm dv hz = Except.ok neo) :
    neo.name ≠ some "" := by
  have hn := (mkNearEarthObject_ok_fields d nm dv hz neo h).2.1
  rw [hn]
  rcases nm with _ | s
  · simp [storedName]
  · by_cases hs : s = "" <;> simp [storedName, hs]

/-- The fields of a successfully constructed `CloseApproach`. -/
theorem mkCloseApproach_ok_fields (d : String) (t : Option String) (dv vv : PyVal)
    (a : CloseApproach) (h : mkCloseApproach d t dv vv = Except.ok a) :
    a._designation = d ∧
      (t = none → a.time = none) ∧ (t = some "" → a.time = none) ∧
      (dv.truthy = false → a.distance = NumVal.nan) ∧
      (vv.truthy = false → a.velocity = NumVal.nan) := by
  rcases hd : (if dv.truthy then pyFloat dv else Except.ok NumVal.nan) with e | dist
  · rw [mkCloseApproach.eq_def, hd] at h
    simp at h
  · rcases hv : (if vv.truthy then pyFloat vv else Except.ok NumVal.nan) with e | vel
    · rw [mkCloseApproach.eq_def, hd, hv] at h
      simp at h
    · rw [mkCloseApproach.eq_def, hd, hv] at h
      simp only [Except.ok.injEq] at h
      subst h
      refine ⟨rfl, ?_, ?_, ?_, ?_⟩
      · intro ht; rw [ht]
      · intro ht; rw [ht]; simp
      · intro hf
        rw [hf] at hd
        simp only [Bool.false_eq_true, if_false, Except.ok.injEq] at hd
        exact hd.symm
      · intro hf
        rw [hf] at hv
        simp only [Bool.false_eq_true, if_false, Except.ok.injEq] at hv
        exact hv.symm

/-! ### C3: lookup of an empty or absent name -/

/-- Counterexample to C3: `neoA` is producible by the record constructor
with the empty-string name (stored name `None`), the name index of the
database built from it holds it under the `None` key, and
`get_neo_by_name(None)` returns it rather than `None`: the index does
not exclude NEOs with an absent name. -/
theorem C3_counterexample :
    mkNearEarthObject "A" (some "") PyVal.pynone PyVal.pynone = Except.ok neoA ∧
      (NEODatabase.init [neoA] []).get_neo_by_name none = some neoA ∧
      (NEODatabase.init [neoA] []).get_neo_by_name none ≠ none :=
  ⟨rfl, by decide, by decide⟩

/-- C3 as amended: NEOs with an absent name are present in the name index
under the `None` key, so only the empty-string lookup is guaranteed null:
for every database constructed from constructor-built NEOs,
`get_neo_by_name` with the empty string returns `None`. -/
theorem C3_amended_empty_name_lookup (neos : List NearEarthObject)
    (approaches : List CloseApproach)
    (hctor : ∀ neo ∈ neos, ∃ d nm dv hz, mkNearEarthObject d nm dv hz = Except.ok neo) :
    (NEODatabase.init neos approaches).get_neo_by_name (some "") = none := by
  rw [NEODatabase.get_neo_by_name, init_name_neo_map]
  refine dictGet?_foldl_dictInsert_eq_none (fun neo => neo.name) (fun neo => neo) neos
    (some "") ?_
  intro neo hneo
  obtain ⟨d, nm, dv, hz, hmk⟩ := hctor neo hneo
  exact mkNearEarthObject_name_ne_empty d nm dv hz neo hmk

/-- Witness for the amended C3: `neoB` is constructor-built, and the
empty-string name lookup on its database returns `None`. -/
theorem C3_amended_empty_name_lookup_witness :
    (∀ neo ∈ [neoB], ∃ d nm dv hz, mkNearEarthObject d nm dv hz = Except.ok neo) ∧
      (NEODatabase.init [neoB] [appA]).get_neo_by_name (some "") = none :=
  ⟨by
      intro neo hneo
      rw [List.mem_singleton] at hneo
      subst hneo
      exact ⟨"B", some "Bee", PyVal.num 1, PyVal.bool true, rfl⟩,
    C3_amended_empty_name_lookup [neoB] [appA] (by
      intro neo hneo
      rw [List.mem_singleton] at hneo
      subst hneo
      exact ⟨"B", some "Bee", PyVal.num 1, PyVal.bool true, rfl⟩)⟩

/-! ### C6: the writers on orphan approaches -/

/-- C6 evaluated: on a linked approach both writers merge the approach's
serialization with the linked NEO's, but on an orphan approach
(`neo` is `None`) both writers raise `AttributeError` from
`result.neo.serialize()` instead of degrading to null object fields. -/
theorem C6_writer_orphan_fault :
    write_to_csv [(appZ, none)] = Except.error PyError.attributeError ∧
      write_to_json [(appZ, none)] = Except.error PyError.attributeError ∧
      write_to_json [(appA, some neoA)] =
        Except.ok [{ approach := appA.serialize, neo := neoA.serialize }] ∧
      write_to_csv [(appA, some neoA)] =
        Except.ok [csvFieldnames.map CsvCell.str,
          [CsvCell.str (datetime_to_str appA.time), float_to_csv appA.distance,
            float_to_csv appA.velocity, CsvCell.str neoA.designation, CsvCell.str "",
            float_to_csv neoA.diameter, CsvCell.bool neoA.hazardous]] :=
  ⟨rfl, rfl, rfl, rfl⟩

/-! ### C8: record construction on missing and malformed values -/

/-- Counterexample to C8: record construction does fail on a malformed
(non-empty, unparseable) numeric string — `float("abc")` raises
`ValueError` in both constructors. -/
theorem C8_counterexample :
    mkNearEarthObject "X" none (PyVal.str "abc") PyVal.pynone =
        Except.error PyError.valueError ∧
      mkCloseApproach "X" none (PyVal.str "abc") PyVal.pynone =
        Except.error PyError.valueError :=
  ⟨rfl, rfl⟩

/-- C8 as amended: record construction never fails on missing (falsy)
values — an absent diameter, distance or velocity becomes the
not-a-number sentinel, an absent time becomes null, and an absent or
unrecognized hazardous marker (anything but the Y/N mapping) becomes
false — though a non-empty unparseable numeric string still raises. -/
theorem C8_amended_missing_values (d : String) (nm : Option String) (s : String)
    (t : Option String) (hs : s ≠ "Y") (ht : t = none ∨ t = some "") :
    (∃ neo, mkNearEarthObject d nm PyVal.pynone (loadHazardous s) = Except.ok neo ∧
        neo.diameter = NumVal.nan ∧ neo.hazardous = false) ∧
      (∃ a, mkCloseApproach d t PyVal.pynone PyVal.pynone = Except.ok a ∧
        a.time = none ∧ a.distance = NumVal.nan ∧ a.velocity = NumVal.nan) := by
  constructor
  · refine ⟨_, rfl, rfl, ?_⟩
    show (loadHazardous s).truthy = false
    by_cases hn : s = "N"
    · subst hn
      rfl
    · rw [loadHazardous]
      have h1 : dictGet? hazardous_map s = none := by
        rw [hazardous_map, dictGet?, if_neg (fun hh => hs hh.symm),
          dictGet?, if_neg (fun hh => hn hh.symm), dictGet?_nil]
      rw [h1]
      rfl
  · rcases ht with ht | ht <;> subst ht
    · exact ⟨_, rfl, rfl, rfl, rfl⟩
    · exact ⟨_, rfl, rfl, rfl, rfl⟩

/-- Witness for the amended C8: an unrecognized hazardous marker `"Q"` and
an absent time, at concrete inputs. -/
theorem C8_amended_missing_values_witness :
    ("Q" : String) ≠ "Y" ∧
      ((none : Option String) = none ∨ (none : Option String) = some "") ∧
      ((∃ neo, mkNearEarthObject "X" none PyVal.pynone (loadHazardous "Q") = Except.ok neo ∧
          neo.diameter = NumVal.nan ∧ neo.hazardous = false) ∧
        (∃ a, mkCloseApproach "X" none PyVal.pynone PyVal.pynone = Except.ok a ∧
          a.time = none ∧ a.distance = NumVal.nan ∧ a.velocity = NumVal.nan)) :=
  ⟨by decide, Or.inl rfl,
    C8_amended_missing_values "X" none "Q" none (by decide) (Or.inl rfl)⟩

/-! ### String append associativity (for C9) -/

theorem string_append_assoc (a b c : String) : (a ++ b) ++ c = a ++ (b ++ c) := by
  apply String.ext
  simp [String.data_append, List.append_assoc]

/-! ### C9: a `None` name argument is stored as the string "None" -/

/-- C9: constructing a `NearEarthObject` with the name argument absent
(`None`, the default) stores the four-character string `"None"`, so
`fullname` renders as `<designation> (None)`; only the exact empty
string is normalized to the stored-null no-name sentinel. -/
theorem C9_none_name_stored (d : String) (dv hz : PyVal) (neo : NearEarthObject)
    (h : mkNearEarthObject d none dv hz = Except.ok neo) :
    neo.name = some "None" ∧ neo.fullname = d ++ " (None)" ∧
      (∀ s neo', mkNearEarthObject d (some s) dv hz = Except.ok neo' →
        (neo'.name = none ↔ s = "")) := by
  have hf := mkNearEarthObject_ok_fields d none dv hz neo h
  have hname : neo.name = some "None" := by rw [hf.2.1]; rfl
  refine ⟨hname, ?_, ?_⟩
  · rw [NearEarthObject.fullname.eq_def, hname]
    simp only [hf.1]
    rw [if_neg (by decide)]
    rw [string_append_assoc, string_append_assoc]
    rfl
  · intro s neo' h'
    have hn' := (mkNearEarthObject_ok_fields d (some s) dv hz neo' h').2.1
    rw [hn', storedName]
    by_cases hs : s = "" <;> simp [hs]

/-- Witness for C9: constructing with designation `"2020"` and no name
stores the name `"None"` and renders the fullname `"2020 (None)"`. -/
theorem C9_none_name_stored_witness :
    mkNearEarthObject "2020" none PyVal.pynone PyVal.pynone =
        Except.ok { designation := "2020", name := some "None",
                    diameter := NumVal.nan, hazardous := false } ∧
      ({ designation := "2020", name := some "None", diameter := NumVal.nan,
          hazardous := false } : NearEarthObject).name = some "None" ∧
      ({ designation := "2020", name := some "None", diameter := NumVal.nan,
          hazardous := false } : NearEarthObject).fullname = "2020" ++ " (None)" :=
  ⟨rfl,
    (C9_none_name_stored "2020" PyVal.pynone PyVal.pynone _ rfl).1,
    (C9_none_name_stored "2020" PyVal.pynone PyVal.pynone _ rfl).2.1⟩

/-! ### C10: any falsy measurement, including zero, becomes NaN -/

/-- C10: in record construction, any falsy diameter, distance or velocity
value — including a genuine numeric zero — is coerced to the NaN
sentinel, making a zero measurement indistinguishable from an unknown
one: construction from the falsy value equals construction from `None`. -/
theorem C10_falsy_numeric_is_nan (d : String) (nm : Option String) (hz : PyVal)
    (t : Option String) (v w : PyVal) (hv : v.truthy = false) :
    mkNearEarthObject d nm v hz = mkNearEarthObject d nm PyVal.pynone hz ∧
      (∃ neo, mkNearEarthObject d nm v hz = Except.ok neo ∧
        neo.diameter = NumVal.nan) ∧
      mkCloseApproach d t v w = mkCloseApproach d t PyVal.pynone w ∧
      mkCloseApproach d t w v = mkCloseApproach d t w PyVal.pynone := by
  have h1 : mkNearEarthObject d nm v hz = mkNearEarthObject d nm PyVal.pynone hz := by
    rw [mkNearEarthObject, mkNearEarthObject, hv]
    rfl
  refine ⟨h1,
    ⟨{ designation := d, name := storedName nm, diameter := NumVal.nan,
        hazardous := hz.truthy }, by rw [h1]; rfl, rfl⟩, ?_, ?_⟩
  · rw [mkCloseApproach.eq_def, mkCloseApproach.eq_def, hv]
    rfl
  · rw [mkCloseApproach.eq_def, mkCloseApproach.eq_def, hv]
    rfl

/-- Witness for C10: a genuine numeric zero diameter/distance/velocity is
falsy and construction coincides with construction from `None`. -/
theorem C10_falsy_numeric_is_nan_witness :
    (PyVal.num 0).truthy = false ∧
      (mkNearEarthObject "X" none (PyVal.num 0) PyVal.pynone =
          mkNearEarthObject "X" none PyVal.pynone PyVal.pynone ∧
        (∃ neo, mkNearEarthObject "X" none (PyVal.num 0) PyVal.pynone = Except.ok neo ∧
          neo.diameter = NumVal.nan) ∧
        mkCloseApproach "X" none (PyVal.num 0) (PyVal.num 3) =
          mkCloseApproach "X" none PyVal.pynone (PyVal.num 3) ∧
        mkCloseApproach "X" none (PyVal.num 3) (PyVal.num 0) =
          mkCloseApproach "X" none (PyVal.num 3) PyVal.pynone) :=
  ⟨by decide,
    C10_falsy_numeric_is_nan "X" none PyVal.pynone none (PyVal.num 0) (PyVal.num 3)
      (by decide)⟩

end NEO
